import Mathlib

/-!
# hackerbeeper: a verification development of `main.go`

The program plays a hard-coded melody through an audio stream, either on its
own (`autoplay`) or one note per key press (`playWithKeyboard`).

The embedding has three layers.

* The `Stream` record and its methods (`SetFrequency`, `PlayNote`, `Silence`,
  `callback`) are pure functions on an explicit state.  `PlayNote` touches
  the Go runtime's timers, which are modelled as a table of timers that the
  stream's `timer` field points into.
* The functions that talk to the outside world (`StartDefaultStream`,
  `autoplay`, `playWithKeyboard`, `run`, `main`) return their result together
  with the trace of external calls they made, for an environment `Env` that
  fixes which external calls fail.
* The standard-library routines the program relies on (`flag.FlagSet.Parse`,
  `time.AfterFunc`, `Timer.Stop`, `time.Sleep`) are modelled from their
  documented behaviour.

`float64` frequencies are only stored, copied and set to the constant `0` by
the scheduling code; they are represented by the exact decimal value of the
source literal.  The one floating-point computation of the program, the sine
sample of `callback`, is kept as a parameter `osc`.
-/

namespace Hackerbeeper

/-! ## Basic types and constants -/

/-- A Go `float64` that is only stored and compared, never computed with. -/
abbrev Float64 := ℚ

/-- A Go `time.Duration`: a signed count of nanoseconds. -/
abbrev Duration := Int

/-- A Go `error` value, represented by its message. -/
abbrev Error := String

/-- The constant `time.Minute`, in nanoseconds. -/
def Minute : Duration := 60 * 1000000000

/-- The constant `time.Millisecond`, in nanoseconds. -/
def Millisecond : Duration := 1000000

/-- The constant `SampleRate`. -/
def SampleRate : Int := 44100

/-- The constant `NoteDuration`. -/
def NoteDuration : Duration := 200 * Millisecond

/-- The constant `BPM`. -/
def BPM : Int := 120

/-- The type `Note`. -/
structure Note where
  Frequency : Float64
  Duration : Duration
deriving DecidableEq, Repr

/-- The note duration `d1`. -/
def d1 : Duration := 4 * (Minute / BPM)

/-- The note duration `d2`. -/
def d2 : Duration := 2 * (Minute / BPM)

/-- The note duration `d4`. -/
def d4 : Duration := 1 * (Minute / BPM)

/-- The note duration `d8`. -/
def d8 : Duration := (Minute / BPM) / 2

/-- The note duration `d16`. -/
def d16 : Duration := (Minute / BPM) / 4

/-! The note frequencies used by the song table. -/

def B3 : Float64 := 493.8833
def C4 : Float64 := 523.2511
def Df4 : Float64 := 554.3653
def D4 : Float64 := 587.3295
def Ds4 : Float64 := 622.2540
def Ef4 : Float64 := 622.2540
def E4 : Float64 := 659.2551
def F4 : Float64 := 698.4565
def Gf4 : Float64 := 739.9888
def G4 : Float64 := 783.9909
def Af4 : Float64 := 830.6094
def A4 : Float64 := 880.0000
def Bf4 : Float64 := 932.3275
def B4 : Float64 := 987.7666
def C5 : Float64 := 1046.5023
def Df5 : Float64 := 1108.7305
def D5 : Float64 := 1174.6591
def Ef5 : Float64 := 1244.5079
def E5 : Float64 := 1318.5102
def F5 : Float64 := 1396.9129
def Gf5 : Float64 := 1479.9777
def G5 : Float64 := 1567.9817
def Af5 : Float64 := 1661.2188
def A5 : Float64 := 1760.0000
def Bf5 : Float64 := 1864.6550
def B5 : Float64 := 1975.5332
def C6 : Float64 := 2093.0045
def Df6 : Float64 := 2217.4610
def D6 : Float64 := 2349.3181
def Ef6 : Float64 := 2489.0159
def E6 : Float64 := 2637.0205

/-- The melody stored under `"bumblebees"` in `songs`. -/
def bumblebees : List Note := [
  ⟨E6, d16⟩, ⟨Ef6, d16⟩, ⟨D6, d16⟩, ⟨Df6, d16⟩, ⟨D6, d16⟩, ⟨Df6, d16⟩, ⟨C6, d16⟩, ⟨B5, d16⟩,
  ⟨C6, d16⟩, ⟨B5, d16⟩, ⟨Bf5, d16⟩, ⟨A5, d16⟩, ⟨Af5, d16⟩, ⟨G5, d16⟩, ⟨Gf5, d16⟩, ⟨F5, d16⟩,
  ⟨E5, d16⟩, ⟨Ef5, d16⟩, ⟨D5, d16⟩, ⟨Df5, d16⟩, ⟨D5, d16⟩, ⟨Df5, d16⟩, ⟨C5, d16⟩, ⟨B4, d16⟩,
  ⟨C5, d16⟩, ⟨B4, d16⟩, ⟨Bf4, d16⟩, ⟨A4, d16⟩, ⟨Af4, d16⟩, ⟨G4, d16⟩, ⟨Gf4, d16⟩, ⟨F4, d16⟩,
  ⟨E4, d16⟩, ⟨Ef4, d16⟩, ⟨D4, d16⟩, ⟨Df4, d16⟩, ⟨D4, d16⟩, ⟨Df4, d16⟩, ⟨C4, d16⟩, ⟨B3, d16⟩,
  ⟨E4, d16⟩, ⟨Ef4, d16⟩, ⟨D4, d16⟩, ⟨Df4, d16⟩, ⟨D4, d16⟩, ⟨Df4, d16⟩, ⟨C4, d16⟩, ⟨B3, d16⟩,
  ⟨E4, d16⟩, ⟨Ef4, d16⟩, ⟨D4, d16⟩, ⟨Df4, d16⟩, ⟨C4, d16⟩, ⟨F4, d16⟩, ⟨E4, d16⟩, ⟨Ef4, d16⟩,
  ⟨E4, d16⟩, ⟨Ef4, d16⟩, ⟨D4, d16⟩, ⟨Df4, d16⟩, ⟨C4, d16⟩, ⟨Df4, d16⟩, ⟨D4, d16⟩, ⟨Ds4, d16⟩]

/-- The table `songs`: song name to melody. -/
def songs : List (String × List Note) := [("bumblebees", bumblebees)]

/-- The map read `songs[name]`; `none` is the nil slice of an absent key. -/
def songs.lookup (name : String) : Option (List Note) :=
  (songs.find? (fun kv => kv.1 == name)).map (fun kv => kv.2)

/-! ## The stream state and the runtime's timers -/

/-- Life cycle of a timer created by `time.AfterFunc`. -/
inductive TimerStatus
  /-- Armed: the deadline has not passed and `Stop` was not called. -/
  | pending
  /-- `Stop` was called while the timer was pending; it will never fire. -/
  | stopped
  /-- The deadline passed: the function was started in its own goroutine,
  which has not yet completed its call of `Silence`. -/
  | fired
  /-- The goroutine has run `Silence` to completion. -/
  | done
deriving DecidableEq, Repr

/-- A timer of the Go runtime created by `time.AfterFunc(d, s.Silence)`. -/
structure Timer where
  d : Duration
  status : TimerStatus
deriving DecidableEq, Repr

/-- The type `Stream` (the embedded `*portaudio.Stream` and the mutex carry no
data of their own).  The field `timer` is `nil` or points at a runtime timer,
identified by its position in the timer table. -/
structure Stream where
  freq : Float64
  timer : Option Nat
  n : Int
deriving DecidableEq, Repr

/-- The zero value `&Stream{}` allocated by `StartDefaultStream`. -/
def Stream.fresh : Stream := { freq := 0, timer := none, n := 0 }

/-- A stream together with the runtime timers that were created for it. -/
structure Sys where
  stream : Stream
  timers : List Timer
deriving DecidableEq, Repr

/-- A freshly started stream; no timer has been created yet. -/
def Sys.fresh : Sys := { stream := Stream.fresh, timers := [] }

/-- Conversion of a mathematical integer to `int64`: wrap-around modulo `2^64`. -/
def wrapInt64 (x : Int) : Int := (x + 2 ^ 63) % 2 ^ 64 - 2 ^ 63

/-- The values an `int64` can hold. -/
def isInt64 (x : Int) : Prop := -(2 ^ 63) ≤ x ∧ x < 2 ^ 63

instance (x : Int) : Decidable (isInt64 x) := by unfold isInt64; infer_instance

/-- The method `(*Stream).Frequency`. -/
def Stream.Frequency (s : Stream) : Float64 := s.freq

/-- The method `(*Stream).SetFrequency`. -/
def Stream.SetFrequency (s : Stream) (v : Float64) : Stream := { s with freq := v }

/-- The method `(*Stream).Silence`. -/
def Stream.Silence (s : Stream) : Stream := s.SetFrequency 0

/-- The method `(*Timer).Stop`: a pending timer is prevented from firing; a
timer that already fired or was stopped is left as it is (`Stop` does not
wait for a started function to complete). -/
def Timer.Stop (t : Timer) : Timer :=
  match t.status with
  | .pending => { t with status := .stopped }
  | _ => t

/-- Calls `Stop` on the timer with identity `id` of the timer table. -/
def stopTimer (timers : List Timer) (id : Nat) : List Timer :=
  timers.modify Timer.Stop id

/-- The call `time.AfterFunc(d, s.Silence)`: a new pending timer is created;
its identity is returned with the extended table. -/
def AfterFunc (timers : List Timer) (d : Duration) : Nat × List Timer :=
  (timers.length, timers ++ [{ d := d, status := .pending }])

/-- The method `(*Stream).PlayNote`; the whole body runs under the mutex. -/
def Sys.PlayNote (sys : Sys) (note : Note) : Sys :=
  let s := { sys.stream with freq := note.Frequency }
  let timers :=
    match s.timer with
    | some id => stopTimer sys.timers id
    | none => sys.timers
  let (id, timers) := AfterFunc timers note.Duration
  { stream := { s with timer := some id }, timers := timers }

/-- The loop of `callback` over `out[0]`: sample `i` receives the oscillator
value for the current counter, and the counter is incremented (as an `int64`)
after every sample. -/
def fillBuffer {Sample : Type} (osc : Float64 → Int → Sample) (freq : Float64) :
    List Sample → Int → List Sample × Int
  | [], n => ([], n)
  | _ :: rest, n =>
    let r := fillBuffer osc freq rest (wrapInt64 (n + 1))
    (osc freq n :: r.1, r.2)

/-- The method `(*Stream).callback`.  The parameter `osc freq n` stands for the
expression `float32(math.Sin(freq * 2 * math.Pi * (float64(n) / float64(SampleRate))))`.
The result is `none` when `out` has no channel 0 (the index `out[0]` panics). -/
def Stream.callback {Sample : Type} (osc : Float64 → Int → Sample) (s : Stream)
    (out : List (List Sample)) : Option (Stream × List (List Sample)) :=
  let freq := s.Frequency
  match out with
  | [] => none
  | ch0 :: chs =>
    let r := fillBuffer osc freq ch0 s.n
    some ({ s with n := r.2 }, r.1 :: chs)

/-! ## Method calls on a stream, in any order -/

/-- One call of a method of the stream, by whichever goroutine makes it. -/
inductive Call (Sample : Type)
  | setFrequency (v : Float64)
  | playNote (note : Note)
  | silence
  | callback (out : List (List Sample))

/-- Effect of one method call on the stream and its timers. -/
def Sys.call {Sample : Type} (osc : Float64 → Int → Sample) (sys : Sys) :
    Call Sample → Option Sys
  | .setFrequency v => some { sys with stream := sys.stream.SetFrequency v }
  | .playNote note => some (sys.PlayNote note)
  | .silence => some { sys with stream := sys.stream.Silence }
  | .callback out =>
    (sys.stream.callback osc out).map (fun r => { sys with stream := r.1 })

/-- Effect of a sequence of method calls, first call first. -/
def Sys.calls {Sample : Type} (osc : Float64 → Int → Sample) (sys : Sys) :
    List (Call Sample) → Option Sys
  | [] => some sys
  | c :: cs => (sys.call osc c).bind (fun sys1 => Sys.calls osc sys1 cs)

/-- Number of `callback` invocations in a sequence of calls. -/
def countCallbacks {Sample : Type} : List (Call Sample) → Nat
  | [] => 0
  | .callback _ :: cs => countCallbacks cs + 1
  | _ :: cs => countCallbacks cs

/-- Every `callback` of the sequence receives a buffer whose channel 0 holds
`N` samples. -/
def buffersOfSize {Sample : Type} (N : Nat) : List (Call Sample) → Prop
  | [] => True
  | .callback out :: cs => (∃ ch0 chs, out = ch0 :: chs ∧ ch0.length = N) ∧ buffersOfSize N cs
  | _ :: cs => buffersOfSize N cs

/-! ## Timer scheduling in interactive mode -/

/-- One atomic step of the interactive session as far as the stream's
frequency and timers are concerned. -/
inductive Sched
  /-- The main goroutine reads a key and runs `s.PlayNote(note)`. -/
  | key (note : Note)
  /-- The runtime: the deadline of timer `id` passes and `s.Silence` is started
  in its own goroutine. -/
  | expire (id : Nat)
  /-- The goroutine started for timer `id` obtains the mutex inside
  `SetFrequency` and completes `s.Silence()`. -/
  | silence (id : Nat)
deriving DecidableEq, Repr

/-- Effect of one scheduling step; `none` when the step cannot happen in the
current state (only a pending timer expires, only a fired timer runs
`Silence`). -/
def Sys.sched (sys : Sys) : Sched → Option Sys
  | .key note => some (sys.PlayNote note)
  | .expire id =>
    match sys.timers[id]? with
    | some t =>
      if t.status = .pending then
        some { sys with timers := sys.timers.set id { t with status := .fired } }
      else none
    | none => none
  | .silence id =>
    match sys.timers[id]? with
    | some t =>
      if t.status = .fired then
        some { stream := sys.stream.Silence,
               timers := sys.timers.set id { t with status := .done } }
      else none
    | none => none

/-- Effect of a schedule, first step first. -/
def Sys.scheds (sys : Sys) : List Sched → Option Sys
  | [] => some sys
  | a :: as => (sys.sched a).bind (fun sys1 => Sys.scheds sys1 as)

/-! ## The outside world -/

/-- Which external operations fail in a session, and how many key presses the
terminal delivers before the read blocks for good. -/
structure Env where
  /-- Result of `exec.Command("stty", ...).Run()`. -/
  stty : Option Error
  /-- Error result of `portaudio.OpenDefaultStream`. -/
  openDefaultStream : Option Error
  /-- Result of `stream.Start()`. -/
  start : Option Error
  /-- Result of `stream.Close()`. -/
  close : Option Error
  /-- Number of reads of `os.Stdin` that return, with a byte or with an error:
  the source inspects neither result. -/
  keys : Nat

/-- A call that crosses the boundary of the program, or a method call on the
stream made by one of the schedulers. -/
inductive Event
  | portaudioInit
  | portaudioTerm
  | stty
  | openDefaultStream
  | start
  | close
  | setFrequency (v : Float64)
  | sleep (d : Duration)
  | read
  | playNote (note : Note)
  | stderr (msg : Error)
deriving DecidableEq, Repr

/-- How a function of the program ends. -/
inductive Outcome
  /-- It returned the given `error` (`none` is `nil`). -/
  | returned (err : Option Error)
  /-- It is waiting in `os.Stdin.Read` for a key that never comes. -/
  | blocked
  /-- It panicked. -/
  | panicked
deriving DecidableEq, Repr

/-- The function `StartDefaultStream`: the result and the external calls made. -/
def StartDefaultStream (env : Env) : Except Error Stream × List Event :=
  let stream := Stream.fresh
  match env.openDefaultStream with
  | some err => (.error err, [.openDefaultStream])
  | none =>
    match env.start with
    | some err => (.error err, [.openDefaultStream, .start])
    | none => (.ok stream, [.openDefaultStream, .start])

/-- The loop `for _, note := range notes` of `autoplay`. -/
def autoplayLoop : List Note → List Event
  | [] => []
  | note :: rest => .setFrequency note.Frequency :: .sleep note.Duration :: autoplayLoop rest

/-- The function `autoplay`.  The deferred `stream.Close()` runs after the
return value has been set, and its own result is dropped. -/
def autoplay (env : Env) (notes : List Note) : Outcome × List Event :=
  match StartDefaultStream env with
  | (.error err, tr) => (.returned (some err), tr)
  | (.ok _, tr) =>
    (.returned none, tr ++ autoplayLoop notes ++ [.setFrequency 0] ++ [.close])

/-- The loop `for i := 0; ; i = (i + 1) % len(notes)` of `playWithKeyboard`,
started at index `i`, for `keys` more key presses.  The results of
`os.Stdin.Read` are dropped by the source.  Indexing past the end panics. -/
def keyboardLoop (notes : List Note) : Nat → Nat → Outcome × List Event
  | 0, _ => (.blocked, [])
  | keys + 1, i =>
    match notes[i]? with
    | none => (.panicked, [.read])
    | some note =>
      let r := keyboardLoop notes keys ((i + 1) % notes.length)
      (r.1, .read :: .playNote note :: r.2)

/-- The function `playWithKeyboard`.  The loop has no exit; the deferred
`stream.Close()` only runs when the loop panics. -/
def playWithKeyboard (env : Env) (notes : List Note) : Outcome × List Event :=
  match env.stty with
  | some err => (.returned (some err), [.stty])
  | none =>
    match StartDefaultStream env with
    | (.error err, tr) => (.returned (some err), .stty :: tr)
    | (.ok _, tr) =>
      let r := keyboardLoop notes env.keys 0
      match r.1 with
      | .panicked => (.panicked, .stty :: tr ++ r.2 ++ [.close])
      | o => (o, .stty :: tr ++ r.2)

/-! ## Command line -/

/-- The part `name[0:i]` of a flag, `i` the position of the first `=` after
the first character. -/
def flagName : List Char → List Char
  | [] => []
  | c :: cs => c :: cs.takeWhile (fun x => x != '=')

/-- The method `(*flag.FlagSet).parseOne` of the standard library, for a flag
set on which no flag has been defined.  The result is the remaining arguments,
or the error.  (Only the bytes `-` and `=` are inspected, so working on
characters instead of bytes makes no difference.  The message and usage text
that the package prints by itself on an error are not part of the trace.) -/
def FlagSet.parseOne : List String → Except Error (List String)
  | [] => .ok []
  | s :: rest =>
    match s.data with
    | '-' :: c :: cs =>
      if c = '-' ∧ cs = [] then .ok rest
      else
        let name := if c = '-' then cs else c :: cs
        match name with
        | [] => .error ("bad flag syntax: " ++ s)
        | x :: _ =>
          if x = '-' ∨ x = '=' then .error ("bad flag syntax: " ++ s)
          else
            let name := String.mk (flagName name)
            if name = "help" ∨ name = "h" then .error "flag: help requested"
            else .error ("flag provided but not defined: -" ++ name)
    | _ => .ok (s :: rest)

/-- The method `(*flag.FlagSet).Parse` with `ContinueOnError`, for a flag set
on which no flag has been defined: `parseOne` never reports a flag as seen, so
the loop ends after its first round. -/
def FlagSet.Parse (arguments : List String) : Except Error (List String) :=
  FlagSet.parseOne arguments

/-- The method `(*flag.FlagSet).Arg`: the `i`-th remaining argument, or the
empty string when there is none. -/
def FlagSet.Arg (args : List String) (i : Nat) : String :=
  (args[i]?).getD ""

/-- The call `flag.String(name, value, usage)`: it defines the flag on the
package-level flag set `flag.CommandLine` and returns a pointer to a variable
holding the default.  The program never parses `flag.CommandLine`, so the
variable keeps this value. -/
def flagString (_name : String) (value : String) (_usage : String) : String := value

/-- The function `run`.  The flag set `fs` is created empty; `song` is defined
on the package-level flag set, not on `fs`. -/
def run (env : Env) (args : List String) : Outcome × List Event :=
  let song := flagString "song" "bumblebees" "song name"
  match FlagSet.Parse args with
  | .error err => (.returned (some err), [])
  | .ok rest =>
    match songs.lookup song with
    | none => (.returned (some "song not found"), [])
    | some notes =>
      let cmd := FlagSet.Arg rest 0
      if cmd = "" then playWithKeyboard env notes
      else if cmd = "autoplay" then autoplay env notes
      else (.returned (some "unknown command"), [])

/-- The function `main`: the exit status of the process (`none` while it is
still running) and the external calls made.  `os.Exit(1)` skips the deferred
`portaudio.Terminate()`; a panic runs it and ends the process with status 2. -/
def main (env : Env) (args : List String) : Option Nat × List Event :=
  let r := run env args
  match r.1 with
  | .returned (some err) => (some 1, .portaudioInit :: r.2 ++ [.stderr err])
  | .returned none => (some 0, .portaudioInit :: r.2 ++ [.portaudioTerm])
  | .blocked => (none, .portaudioInit :: r.2)
  | .panicked => (some 2, .portaudioInit :: r.2 ++ [.portaudioTerm])

/-! ## Observing a trace on a virtual clock -/

/-- Replays a trace on a virtual clock that starts at `now` and only advances
in `time.Sleep` (which returns at once for a negative duration), applying the
frequency changes made at or before time `t`. -/
def replay (t : Int) : List Event → Int → Stream → Stream
  | [], _, s => s
  | .setFrequency v :: es, now, s =>
    replay t es now (if now ≤ t then s.SetFrequency v else s)
  | .sleep d :: es, now, s => replay t es (now + max d 0) s
  | _ :: es, now, s => replay t es now s

/-- The frequency of a freshly started stream at virtual time `t` of a trace. -/
def freqAt (tr : List Event) (t : Int) : Float64 :=
  (replay t tr 0 Stream.fresh).Frequency

/-- Total virtual time spent in `time.Sleep` by a trace. -/
def elapsed : List Event → Int
  | [] => 0
  | .sleep d :: es => max d 0 + elapsed es
  | _ :: es => elapsed es

/-- Sum of the durations of the notes of a song. -/
def totalDuration (notes : List Note) : Int :=
  (notes.map (fun note => note.Duration)).sum

/-- The method calls of a trace that change the frequency, as the song plays
them: one `SetFrequency` and one `Sleep` per note. -/
def noteEvents (notes : List Note) : List Event :=
  (notes.map (fun note => [Event.setFrequency note.Frequency, Event.sleep note.Duration])).flatten

/-- The method calls that a scheduler makes for a given song: `SetFrequency`
with `0` or with the frequency of a note of the song, `PlayNote` with a note
of the song, `Silence`, and `callback`. -/
def songCall {Sample : Type} (notes : List Note) : Call Sample → Prop
  | .setFrequency v => v = 0 ∨ ∃ note ∈ notes, v = note.Frequency
  | .playNote note => note ∈ notes
  | .silence => True
  | .callback _ => True

/-! ## Arithmetic of the sample counter -/

theorem wrapInt64_wrapInt64_add (a b : Int) :
    wrapInt64 (wrapInt64 a + b) = wrapInt64 (a + b) := by
  unfold wrapInt64
  omega

theorem wrapInt64_of_isInt64 {x : Int} (h : isInt64 x) : wrapInt64 x = x := by
  unfold isInt64 at h
  unfold wrapInt64
  omega

theorem isInt64_wrapInt64 (x : Int) : isInt64 (wrapInt64 x) := by
  unfold isInt64 wrapInt64
  omega

theorem fillBuffer_counter {Sample : Type} (osc : Float64 → Int → Sample) (freq : Float64)
    (buf : List Sample) (n : Int) (hn : isInt64 n) :
    (fillBuffer osc freq buf n).2 = wrapInt64 (n + buf.length) := by
  induction buf generalizing n with
  | nil => simp [fillBuffer, wrapInt64_of_isInt64 hn]
  | cons x rest ih =>
    simp only [fillBuffer, List.length_cons]
    rw [ih _ (isInt64_wrapInt64 _), wrapInt64_wrapInt64_add]
    congr 1
    push_cast
    ring

theorem call_counter {Sample : Type} (osc : Float64 → Int → Sample) (N : Nat)
    (c : Call Sample) (hc : buffersOfSize N [c]) (sys : Sys) (hn : isInt64 sys.stream.n) :
    ∃ sys1, sys.call osc c = some sys1 ∧ isInt64 sys1.stream.n ∧
      sys1.stream.n = wrapInt64 (sys.stream.n + (countCallbacks [c] : Nat) * N) := by
  cases c with
  | setFrequency v =>
    exact ⟨_, rfl, hn, by simp [countCallbacks, Stream.SetFrequency, wrapInt64_of_isInt64 hn]⟩
  | playNote note =>
    exact ⟨_, rfl, hn, by simp [countCallbacks, Sys.PlayNote, AfterFunc, wrapInt64_of_isInt64 hn]⟩
  | silence =>
    exact ⟨_, rfl, hn, by
      simp [countCallbacks, Stream.Silence, Stream.SetFrequency, wrapInt64_of_isInt64 hn]⟩
  | callback out =>
    obtain ⟨⟨ch0, chs, rfl, hlen⟩, _⟩ := hc
    refine ⟨_, rfl, ?_, ?_⟩
    · simp only [fillBuffer_counter osc _ ch0 _ hn]
      exact isInt64_wrapInt64 _
    · simp [fillBuffer_counter osc _ ch0 _ hn, countCallbacks, hlen]

theorem calls_counter {Sample : Type} (osc : Float64 → Int → Sample) (N : Nat)
    (calls : List (Call Sample)) (hc : buffersOfSize N calls) (sys : Sys)
    (hn : isInt64 sys.stream.n) :
    ∃ sys1, sys.calls osc calls = some sys1 ∧
      sys1.stream.n = wrapInt64 (sys.stream.n + (countCallbacks calls : Nat) * N) := by
  induction calls generalizing sys with
  | nil => exact ⟨sys, rfl, by simp [countCallbacks, wrapInt64_of_isInt64 hn]⟩
  | cons c cs ih =>
    have hc1 : buffersOfSize N [c] ∧ buffersOfSize N cs := by
      cases c <;> simpa [buffersOfSize] using hc
    obtain ⟨sys1, h1, hn1, e1⟩ := call_counter osc N c hc1.1 sys hn
    obtain ⟨sys2, h2, e2⟩ := ih hc1.2 sys1 hn1
    refine ⟨sys2, by simp [Sys.calls, h1, h2], ?_⟩
    rw [e2, e1, wrapInt64_wrapInt64_add]
    congr 1
    have : countCallbacks (c :: cs) = countCallbacks [c] + countCallbacks cs := by
      cases c <;> simp [countCallbacks, Nat.add_comm]
    rw [this]
    push_cast
    ring

/-- C5: starting from any `int64` counter value, a sequence of method calls in
which every `callback` gets a buffer of `N` samples runs to completion and
leaves the counter at the initial value plus the number of callbacks times
`N`, wrapped to `int64`; one `callback` advances the counter by the buffer
length, and `SetFrequency`, `PlayNote` and `Silence` leave it as it is. -/
theorem callback_counter_advances {Sample : Type} (osc : Float64 → Int → Sample)
    (sys : Sys) (calls : List (Call Sample)) (N : Nat)
    (hk : isInt64 sys.stream.n) (hN : buffersOfSize N calls) :
    (∃ sys1, sys.calls osc calls = some sys1 ∧
      sys1.stream.n = wrapInt64 (sys.stream.n + (countCallbacks calls : Nat) * N)) ∧
    (∀ ch0 chs, ∃ r, sys.stream.callback osc (ch0 :: chs) = some r ∧
      r.1.n = wrapInt64 (sys.stream.n + ch0.length) ∧ r.1.freq = sys.stream.freq) ∧
    (∀ v, (sys.stream.SetFrequency v).n = sys.stream.n) ∧
    (∀ note, (sys.PlayNote note).stream.n = sys.stream.n) ∧
    sys.stream.Silence.n = sys.stream.n := by
  refine ⟨calls_counter osc N calls hN sys hk, ?_, fun _ => rfl, fun _ => rfl, rfl⟩
  intro ch0 chs
  exact ⟨_, rfl, fillBuffer_counter osc _ ch0 _ hk, rfl⟩

/-- C5, at a concrete input: two buffers of three samples with a `PlayNote`
and a `Silence` in between, starting at the largest `int64`, leave the counter
at `2^63 - 1 + 6` wrapped around. -/
theorem callback_counter_advances_witness :
    isInt64 (2 ^ 63 - 1) ∧
    ∃ sys1, Sys.calls (fun _ n => n) ⟨⟨0, none, 2 ^ 63 - 1⟩, []⟩
        [Call.callback [[0, 0, 0]], Call.playNote ⟨E6, d16⟩, Call.callback [[0, 0, 0]],
          Call.silence] = some sys1 ∧
      sys1.stream.n = wrapInt64 (2 ^ 63 - 1 + ((2 : Nat) : Int) * (3 : Nat)) :=
  ⟨by unfold isInt64; decide,
   (callback_counter_advances (fun _ n => n) ⟨⟨0, none, 2 ^ 63 - 1⟩, []⟩
      [Call.callback [[0, 0, 0]], Call.playNote ⟨E6, d16⟩, Call.callback [[0, 0, 0]],
        Call.silence] 3 (by unfold isInt64; decide) (by simp [buffersOfSize])).1⟩

/-! ## The frequency stays within the song -/

theorem call_freq {Sample : Type} (osc : Float64 → Int → Sample) (notes : List Note)
    (c : Call Sample) (hc : songCall notes c) (sys sys1 : Sys)
    (hinv : sys.stream.freq = 0 ∨ ∃ note ∈ notes, sys.stream.freq = note.Frequency)
    (hrun : sys.call osc c = some sys1) :
    sys1.stream.freq = 0 ∨ ∃ note ∈ notes, sys1.stream.freq = note.Frequency := by
  cases c with
  | setFrequency v =>
    simp only [Sys.call, Option.some.injEq] at hrun
    subst hrun
    exact hc
  | playNote note =>
    simp only [Sys.call, Option.some.injEq] at hrun
    subst hrun
    exact Or.inr ⟨note, hc, rfl⟩
  | silence =>
    simp only [Sys.call, Option.some.injEq] at hrun
    subst hrun
    exact Or.inl rfl
  | callback out =>
    cases out with
    | nil => simp [Sys.call, Stream.callback] at hrun
    | cons ch0 chs =>
      simp only [Sys.call, Stream.callback, Option.map_some', Option.some.injEq] at hrun
      subst hrun
      exact hinv

theorem calls_freq {Sample : Type} (osc : Float64 → Int → Sample) (notes : List Note)
    (calls : List (Call Sample)) (hcalls : ∀ c ∈ calls, songCall notes c) (sys sys1 : Sys)
    (hinv : sys.stream.freq = 0 ∨ ∃ note ∈ notes, sys.stream.freq = note.Frequency)
    (hrun : sys.calls osc calls = some sys1) :
    sys1.stream.freq = 0 ∨ ∃ note ∈ notes, sys1.stream.freq = note.Frequency := by
  induction calls generalizing sys with
  | nil =>
    simp only [Sys.calls, Option.some.injEq] at hrun
    subst hrun
    exact hinv
  | cons c cs ih =>
    simp only [Sys.calls] at hrun
    cases h1 : sys.call osc c with
    | none => simp [h1] at hrun
    | some sys2 =>
      rw [h1] at hrun
      exact ih (fun c1 hc1 => hcalls c1 (List.mem_cons_of_mem _ hc1)) sys2
        (call_freq osc notes c (hcalls c (List.mem_cons_self _ _)) sys sys2 hinv h1) hrun

/-- C10: every state reached from a freshly started stream by method calls
that the schedulers make for a song (`SetFrequency` of `0` or of a note's
frequency, `PlayNote` of a note of the song, `Silence`, `callback`) has a
frequency that is `0` or the frequency of a note of the song. -/
theorem frequency_in_song {Sample : Type} (osc : Float64 → Int → Sample)
    (notes : List Note) (calls : List (Call Sample))
    (hcalls : ∀ c ∈ calls, songCall notes c) (sys1 : Sys)
    (hrun : Sys.fresh.calls osc calls = some sys1) :
    sys1.stream.freq = 0 ∨ ∃ note ∈ notes, sys1.stream.freq = note.Frequency :=
  calls_freq osc notes calls hcalls Sys.fresh sys1 (Or.inl rfl) hrun

/-- C10, at a concrete input: after `PlayNote` of the first note of the song,
one buffer, and `SetFrequency` of the second note's frequency, the frequency is
that of a note of the song. -/
theorem frequency_in_song_witness :
    Sys.calls (fun _ n => n) Sys.fresh
        [Call.playNote ⟨E6, d16⟩, Call.callback [[0, 0]], Call.setFrequency Ef6]
      = some ⟨⟨Ef6, some 0, 2⟩, [⟨d16, TimerStatus.pending⟩]⟩ ∧
    ((⟨⟨Ef6, some 0, 2⟩, [⟨d16, TimerStatus.pending⟩]⟩ : Sys).stream.freq = 0 ∨
      ∃ note ∈ bumblebees,
        (⟨⟨Ef6, some 0, 2⟩, [⟨d16, TimerStatus.pending⟩]⟩ : Sys).stream.freq = note.Frequency) :=
  ⟨rfl,
   frequency_in_song (fun _ n => n) bumblebees
     [Call.playNote ⟨E6, d16⟩, Call.callback [[0, 0]], Call.setFrequency Ef6]
     (by
       intro c hc
       simp only [List.mem_cons, List.mem_singleton, List.not_mem_nil, or_false] at hc
       rcases hc with rfl | rfl | rfl
       · simp [songCall, bumblebees]
       · simp [songCall]
       · exact Or.inr ⟨⟨Ef6, d16⟩, by simp [bumblebees], rfl⟩)
     _ rfl⟩

/-! ## A stale deadline against a newer note -/

/-- C2, evaluated at the failing schedule: the first key arms deadline 0; that
deadline passes and its goroutine is started; the second key sets the
frequency of the newer note, calls `Stop` on deadline 0 (too late to have an
effect) and arms deadline 1; then the goroutine of deadline 0 runs `Silence`.
The frequency is `0` although deadline 1, armed for the newer note, is still
pending. -/
theorem stale_deadline_silences_newer_note :
    Sys.scheds Sys.fresh [Sched.key ⟨E6, d16⟩, Sched.expire 0, Sched.key ⟨Ef6, d16⟩]
      = some ⟨⟨Ef6, some 1, 0⟩, [⟨d16, TimerStatus.fired⟩, ⟨d16, TimerStatus.pending⟩]⟩ ∧
    Sys.scheds Sys.fresh
        [Sched.key ⟨E6, d16⟩, Sched.expire 0, Sched.key ⟨Ef6, d16⟩, Sched.silence 0]
      = some ⟨⟨0, some 1, 0⟩, [⟨d16, TimerStatus.done⟩, ⟨d16, TimerStatus.pending⟩]⟩ := by
  exact ⟨rfl, rfl⟩

/-! ## Autoplay on a virtual clock -/

theorem noteEvents_eq_autoplayLoop (notes : List Note) :
    noteEvents notes = autoplayLoop notes := by
  induction notes with
  | nil => rfl
  | cons note rest ih =>
    simp only [noteEvents, List.map_cons, List.flatten_cons, autoplayLoop] at ih ⊢
    simp [ih]

theorem totalDuration_cons (note : Note) (rest : List Note) :
    totalDuration (note :: rest) = note.Duration + totalDuration rest := by
  simp [totalDuration]

theorem replay_past (t : Int) (es : List Event) (now : Int) (s : Stream) (h : t < now) :
    replay t es now s = s := by
  induction es generalizing now s with
  | nil => rfl
  | cons e es ih =>
    cases e with
    | setFrequency v =>
      simp only [replay]
      rw [if_neg (by omega)]
      exact ih now s h
    | sleep d =>
      simp only [replay]
      exact ih _ s (by omega)
    | _ => exact ih now s h

theorem replay_in_note (t : Int) (pre : List Note) (note : Note) (post : List Note)
    (tl : List Event) (now : Int) (s : Stream)
    (hpre : ∀ x ∈ pre, (0 : Int) ≤ x.Duration)
    (h1 : now + totalDuration pre ≤ t) (h2 : t < now + totalDuration pre + note.Duration) :
    (replay t (autoplayLoop (pre ++ note :: post) ++ tl) now s).freq = note.Frequency := by
  induction pre generalizing now s with
  | nil =>
    simp only [totalDuration, List.map_nil, List.sum_nil, add_zero] at h1 h2
    show (replay t (autoplayLoop post ++ tl) (now + max note.Duration 0)
      (if now ≤ t then s.SetFrequency note.Frequency else s)).freq = note.Frequency
    rw [if_pos h1, replay_past t _ _ _ (by omega)]
    rfl
  | cons p ps ih =>
    rw [totalDuration_cons] at h1 h2
    have hp : (0 : Int) ≤ p.Duration := hpre p (List.mem_cons_self _ _)
    show (replay t (autoplayLoop (ps ++ note :: post) ++ tl) (now + max p.Duration 0)
      (if now ≤ t then s.SetFrequency p.Frequency else s)).freq = note.Frequency
    exact ih _ _ (fun x hx => hpre x (List.mem_cons_of_mem _ hx)) (by omega) (by omega)

theorem replay_after (t : Int) (notes : List Note) (now : Int) (s : Stream)
    (hn : ∀ x ∈ notes, (0 : Int) ≤ x.Duration) (h : now + totalDuration notes ≤ t) :
    (replay t (autoplayLoop notes ++ [Event.setFrequency 0, Event.close]) now s).freq
      = 0 := by
  induction notes generalizing now s with
  | nil =>
    simp only [totalDuration, List.map_nil, List.sum_nil, add_zero] at h
    show (if now ≤ t then s.SetFrequency 0 else s).freq = 0
    rw [if_pos h]
    rfl
  | cons p ps ih =>
    rw [totalDuration_cons] at h
    have hp : (0 : Int) ≤ p.Duration := hn p (List.mem_cons_self _ _)
    show (replay t (autoplayLoop ps ++ [Event.setFrequency 0, Event.close])
      (now + max p.Duration 0)
      (if now ≤ t then s.SetFrequency p.Frequency else s)).freq = 0
    exact ih _ _ (fun x hx => hn x (List.mem_cons_of_mem _ hx)) (by omega)

theorem elapsed_autoplayLoop (notes : List Note) (tl : List Event)
    (hn : ∀ x ∈ notes, (0 : Int) ≤ x.Duration) :
    elapsed (autoplayLoop notes ++ tl) = totalDuration notes + elapsed tl := by
  induction notes with
  | nil => simp [autoplayLoop, totalDuration]
  | cons p ps ih =>
    have hp : (0 : Int) ≤ p.Duration := hn p (List.mem_cons_self _ _)
    rw [totalDuration_cons]
    show max p.Duration 0 + elapsed (autoplayLoop ps ++ tl) = _
    rw [ih (fun x hx => hn x (List.mem_cons_of_mem _ hx)), max_eq_left hp]
    ring

theorem autoplay_started (env : Env) (notes : List Note)
    (hopen : env.openDefaultStream = none) (hstart : env.start = none) :
    autoplay env notes = (Outcome.returned none,
      Event.openDefaultStream :: Event.start ::
        (autoplayLoop notes ++ [Event.setFrequency 0, Event.close])) := by
  simp [autoplay, StartDefaultStream, hopen, hstart]

/-- C3: when the stream starts, `autoplay` makes exactly the calls open, start,
then `SetFrequency(f_i)` and `Sleep(d_i)` for each note in order, then
`SetFrequency(0)` and the deferred close, and returns nil.  For durations that
are not negative, on a virtual clock the frequency is that of note `i`
throughout the interval of length `d_i` that follows the notes before it, it is
`0` from the end of the last note on, and the time slept is the sum of the
durations.  For the song (440 Hz, 100 ms), (880 Hz, 50 ms) the frequency is 440
at 50 ms, 880 at 120 ms and 0 at 160 ms. -/
theorem autoplay_plays_song (env : Env) (notes : List Note)
    (hopen : env.openDefaultStream = none) (hstart : env.start = none) :
    autoplay env notes = (Outcome.returned none,
      [Event.openDefaultStream, Event.start] ++ noteEvents notes
        ++ [Event.setFrequency 0, Event.close]) ∧
    ((∀ x ∈ notes, (0 : Int) ≤ x.Duration) →
      (∀ pre note post, notes = pre ++ note :: post → ∀ t : Int,
        totalDuration pre ≤ t → t < totalDuration pre + note.Duration →
        freqAt (autoplay env notes).2 t = note.Frequency) ∧
      (∀ t : Int, totalDuration notes ≤ t → freqAt (autoplay env notes).2 t = 0) ∧
      elapsed (autoplay env notes).2 = totalDuration notes) ∧
    freqAt (autoplay env [⟨440, 100 * Millisecond⟩, ⟨880, 50 * Millisecond⟩]).2
        (50 * Millisecond) = 440 ∧
    freqAt (autoplay env [⟨440, 100 * Millisecond⟩, ⟨880, 50 * Millisecond⟩]).2
        (120 * Millisecond) = 880 ∧
    freqAt (autoplay env [⟨440, 100 * Millisecond⟩, ⟨880, 50 * Millisecond⟩]).2
        (160 * Millisecond) = 0 := by
  refine ⟨?_, ?_, ?_, ?_, ?_⟩
  · rw [autoplay_started env notes hopen hstart, noteEvents_eq_autoplayLoop]
    simp
  · intro hn
    rw [autoplay_started env notes hopen hstart]
    refine ⟨?_, ?_, ?_⟩
    · intro pre note post hsplit t h1 h2
      subst hsplit
      show (replay t (autoplayLoop (pre ++ note :: post)
        ++ [Event.setFrequency 0, Event.close]) 0 Stream.fresh).freq = note.Frequency
      exact replay_in_note t pre note post _ 0 _
        (fun x hx => hn x (List.mem_append_left _ hx)) (by omega) (by omega)
    · intro t h
      show (replay t (autoplayLoop notes
        ++ [Event.setFrequency 0, Event.close]) 0 Stream.fresh).freq = 0
      exact replay_after t notes 0 _ hn (by omega)
    · show elapsed (autoplayLoop notes ++ [Event.setFrequency 0, Event.close]) = _
      rw [elapsed_autoplayLoop notes _ hn]
      simp [elapsed]
  · rw [autoplay_started env _ hopen hstart]
    rfl
  · rw [autoplay_started env _ hopen hstart]
    rfl
  · rw [autoplay_started env _ hopen hstart]
    rfl

/-- C3, at a concrete input: the two-note song of the example, with a device
that opens and starts (and whose close fails); 120 ms lies in the interval of
the second note, which starts at 100 ms and lasts 50 ms. -/
theorem autoplay_plays_song_witness :
    (⟨none, none, none, some "close failed", 0⟩ : Env).openDefaultStream = none ∧
    (⟨none, none, none, some "close failed", 0⟩ : Env).start = none ∧
    autoplay ⟨none, none, none, some "close failed", 0⟩
        [⟨440, 100 * Millisecond⟩, ⟨880, 50 * Millisecond⟩]
      = (Outcome.returned none,
        [Event.openDefaultStream, Event.start]
          ++ noteEvents [⟨440, 100 * Millisecond⟩, ⟨880, 50 * Millisecond⟩]
          ++ [Event.setFrequency 0, Event.close]) ∧
    freqAt (autoplay ⟨none, none, none, some "close failed", 0⟩
        [⟨440, 100 * Millisecond⟩, ⟨880, 50 * Millisecond⟩]).2 (120 * Millisecond)
      = (⟨880, 50 * Millisecond⟩ : Note).Frequency :=
  ⟨rfl, rfl,
   (autoplay_plays_song ⟨none, none, none, some "close failed", 0⟩
      [⟨440, 100 * Millisecond⟩, ⟨880, 50 * Millisecond⟩] rfl rfl).1,
   ((autoplay_plays_song ⟨none, none, none, some "close failed", 0⟩
      [⟨440, 100 * Millisecond⟩, ⟨880, 50 * Millisecond⟩] rfl rfl).2.1
      (by
        intro x hx
        simp only [List.mem_cons, List.mem_singleton, List.not_mem_nil, or_false] at hx
        rcases hx with rfl | rfl <;> decide)).1
      [⟨440, 100 * Millisecond⟩] ⟨880, 50 * Millisecond⟩ [] rfl (120 * Millisecond)
      (by decide) (by decide)⟩

/-! ## The keyboard loop -/

theorem keyboardLoop_spec (notes : List Note) (keys : Nat) (i : Nat)
    (hi : i < notes.length) :
    (keyboardLoop notes keys i).1 = Outcome.blocked ∧
    (keyboardLoop notes keys i).2.length = 2 * keys ∧
    ∀ j, j < keys → ∃ note, notes[(i + j) % notes.length]? = some note ∧
      (keyboardLoop notes keys i).2[2 * j]? = some Event.read ∧
      (keyboardLoop notes keys i).2[2 * j + 1]? = some (Event.playNote note) := by
  induction keys generalizing i with
  | zero => exact ⟨rfl, rfl, fun j hj => absurd hj (Nat.not_lt_zero j)⟩
  | succ k ih =>
    have hpos : 0 < notes.length := by omega
    have hget : notes[i]? = some notes[i] := List.getElem?_eq_getElem hi
    obtain ⟨h1, h2, h3⟩ := ih ((i + 1) % notes.length) (Nat.mod_lt _ hpos)
    simp only [keyboardLoop, hget]
    refine ⟨h1, by simp [h2]; omega, ?_⟩
    intro j hj
    cases j with
    | zero =>
      exact ⟨notes[i], by simp [Nat.mod_eq_of_lt hi], by simp, by simp⟩
    | succ j1 =>
      obtain ⟨note, e1, e2, e3⟩ := h3 j1 (by omega)
      refine ⟨note, ?_, ?_, ?_⟩
      · rw [Nat.mod_add_mod] at e1
        rw [← e1]
        congr 2
        omega
      · have : 2 * (j1 + 1) = 2 * j1 + 1 + 1 := by omega
        rw [this]
        simpa using e2
      · have : 2 * (j1 + 1) + 1 = (2 * j1 + 1) + 1 + 1 := by omega
        rw [this]
        simpa using e3

theorem PlayNote_post (sys : Sys) (note : Note) :
    (sys.PlayNote note).stream.freq = note.Frequency ∧
    ∃ id, (sys.PlayNote note).stream.timer = some id ∧
      (sys.PlayNote note).timers[id]? = some ⟨note.Duration, TimerStatus.pending⟩ := by
  refine ⟨rfl, ?_⟩
  simp only [Sys.PlayNote, AfterFunc]
  exact ⟨_, rfl, by simp⟩

theorem playWithKeyboard_started (env : Env) (notes : List Note) (hne : notes ≠ [])
    (hstty : env.stty = none) (hopen : env.openDefaultStream = none)
    (hstart : env.start = none) :
    playWithKeyboard env notes = (Outcome.blocked,
      Event.stty :: Event.openDefaultStream :: Event.start ::
        (keyboardLoop notes env.keys 0).2) := by
  have hb := (keyboardLoop_spec notes env.keys 0 (List.length_pos.mpr hne)).1
  simp [playWithKeyboard, StartDefaultStream, hstty, hopen, hstart, hb]

/-- C4: for a non-empty song and a session whose setup succeeds,
`playWithKeyboard` never returns, and its calls after the setup alternate one
key read and one `PlayNote`: the `j`-th read (counting from 0) is followed by
`PlayNote` of the note at index `j mod L`.  In whatever state `PlayNote` of a
note runs, right after it the frequency is the note's frequency and the
stream's timer is a pending deadline of the note's duration. -/
theorem playWithKeyboard_cycles (env : Env) (notes : List Note) (hne : notes ≠ [])
    (hstty : env.stty = none) (hopen : env.openDefaultStream = none)
    (hstart : env.start = none) :
    (playWithKeyboard env notes).1 = Outcome.blocked ∧
    (playWithKeyboard env notes).2.length = 3 + 2 * env.keys ∧
    (playWithKeyboard env notes).2.take 3
      = [Event.stty, Event.openDefaultStream, Event.start] ∧
    ∀ j, j < env.keys → ∃ note, notes[j % notes.length]? = some note ∧
      (playWithKeyboard env notes).2[3 + 2 * j]? = some Event.read ∧
      (playWithKeyboard env notes).2[3 + 2 * j + 1]? = some (Event.playNote note) ∧
      ∀ sys : Sys, (sys.PlayNote note).stream.freq = note.Frequency ∧
        ∃ id, (sys.PlayNote note).stream.timer = some id ∧
          (sys.PlayNote note).timers[id]? = some ⟨note.Duration, TimerStatus.pending⟩ := by
  obtain ⟨_, hlen, hj⟩ := keyboardLoop_spec notes env.keys 0 (List.length_pos.mpr hne)
  rw [playWithKeyboard_started env notes hne hstty hopen hstart]
  refine ⟨rfl, by simp [hlen]; omega, rfl, ?_⟩
  intro j hlt
  obtain ⟨note, e1, e2, e3⟩ := hj j hlt
  refine ⟨note, by simpa using e1, ?_, ?_, fun sys => PlayNote_post sys note⟩
  · have : 3 + 2 * j = 2 * j + 1 + 1 + 1 := by omega
    rw [this]
    simpa using e2
  · have : 3 + 2 * j + 1 = 2 * j + 1 + 1 + 1 + 1 := by omega
    rw [this]
    simpa using e3

/-- C4, at a concrete input: three key presses on a two-note song play the
notes at indices 0, 1 and 0 again. -/
theorem playWithKeyboard_cycles_witness :
    ([⟨E6, d16⟩, ⟨Ef6, d8⟩] : List Note) ≠ [] ∧
    (playWithKeyboard ⟨none, none, none, none, 3⟩ [⟨E6, d16⟩, ⟨Ef6, d8⟩]).1
      = Outcome.blocked ∧
    (playWithKeyboard ⟨none, none, none, none, 3⟩ [⟨E6, d16⟩, ⟨Ef6, d8⟩]).2
      = [Event.stty, Event.openDefaultStream, Event.start,
         Event.read, Event.playNote ⟨E6, d16⟩,
         Event.read, Event.playNote ⟨Ef6, d8⟩,
         Event.read, Event.playNote ⟨E6, d16⟩] :=
  ⟨by simp,
   (playWithKeyboard_cycles ⟨none, none, none, none, 3⟩ [⟨E6, d16⟩, ⟨Ef6, d8⟩]
      (by simp) rfl rfl rfl).1,
   rfl⟩

/-! ## Command line -/

theorem parseOne_cases (s : String) (rest : List String) (hs : s ≠ "--") :
    (∃ err, FlagSet.parseOne (s :: rest) = Except.error err) ∨
      FlagSet.parseOne (s :: rest) = Except.ok (s :: rest) := by
  simp only [FlagSet.parseOne]
  split
  · rename_i c cs hdata
    by_cases h : c = '-' ∧ cs = []
    · exfalso
      apply hs
      apply String.ext
      rw [hdata, h.1, h.2]
    · rw [if_neg h]
      split
      · exact Or.inl ⟨_, rfl⟩
      · split_ifs <;> exact Or.inl ⟨_, rfl⟩
  · exact Or.inr rfl

theorem lookup_default_song :
    songs.lookup (flagString "song" "bumblebees" "song name") = some bumblebees := rfl

theorem run_rejects_first (env : Env) (cmd : String) (rest : List String)
    (h1 : cmd ≠ "") (h2 : cmd ≠ "autoplay") (h3 : cmd ≠ "--") :
    ∃ err, run env (cmd :: rest) = (Outcome.returned (some err), []) := by
  rcases parseOne_cases cmd rest h3 with ⟨err, he⟩ | hok
  · exact ⟨err, by simp [run, FlagSet.Parse, he]⟩
  · exact ⟨"unknown command", by
      simp [run, FlagSet.Parse, hok, lookup_default_song, FlagSet.Arg, h1, h2]⟩

theorem run_rejects_after_terminator (env : Env) (cmd : String) (rest : List String)
    (h1 : cmd ≠ "") (h2 : cmd ≠ "autoplay") :
    ∃ err, run env ("--" :: cmd :: rest) = (Outcome.returned (some err), []) := by
  have hp : FlagSet.parseOne ("--" :: cmd :: rest) = Except.ok (cmd :: rest) := rfl
  exact ⟨"unknown command", by
    simp [run, FlagSet.Parse, hp, lookup_default_song, FlagSet.Arg, h1, h2]⟩

theorem main_of_run_error (env : Env) (args : List String) (err : Error)
    (h : run env args = (Outcome.returned (some err), [])) :
    main env args = (some 1, [Event.portaudioInit, Event.stderr err]) := by
  simp [main, h]

theorem song_flag_eq_ne (pre name : String) (c d : Char) (cs : List Char)
    (hpre : pre.data = c :: d :: cs) (hd : d ≠ '-') :
    pre ++ name ≠ "" ∧ pre ++ name ≠ "autoplay" ∧ pre ++ name ≠ "--" ∨ c ≠ '-' := by
  by_cases hc : c = '-'
  · left
    refine ⟨?_, ?_, ?_⟩
    · intro h
      have h1 := congrArg String.data h
      simp [String.data_append, hpre] at h1
    · intro h
      have h1 := congrArg String.data h
      simp [String.data_append, hpre, hc] at h1
    · intro h
      have h1 := congrArg String.data h
      simp [String.data_append, hpre] at h1
      exact hd h1.2.1
  · exact Or.inr hc

/-- C6, evaluated at the failing input: with the song flag on the command
line, `run` returns the flag parser's error (the flag is not defined on the
flag set that `run` parses) and plays nothing, also for the song that exists.
Without the flag, `run` plays `songs["bumblebees"]` with the chosen
sub-action. -/
theorem run_rejects_song_flag (env : Env) :
    songs.lookup "bumblebees" = some bumblebees ∧
    run env ["-song", "bumblebees"]
      = (Outcome.returned (some "flag provided but not defined: -song"), []) ∧
    run env ["-song", "bumblebees", "autoplay"]
      = (Outcome.returned (some "flag provided but not defined: -song"), []) ∧
    run env ["-song=bumblebees", "autoplay"]
      = (Outcome.returned (some "flag provided but not defined: -song"), []) ∧
    run env [] = playWithKeyboard env bumblebees ∧
    run env ["autoplay"] = autoplay env bumblebees :=
  ⟨rfl, rfl, rfl, rfl, rfl, rfl⟩

/-- C7: when the argument list names a song that is not in the table (in any
of the four spellings of the flag), or its sub-action (the first argument, or
the first argument after the terminator `--`) is neither empty nor
`autoplay`, `run` returns an error without making any external call, so no
stream is opened, and `main` prints that error and exits with status 1. -/
theorem run_rejects_bad_arguments (env : Env) (args : List String)
    (h : (∃ name rest, songs.lookup name = none ∧
            (args = "-song" :: name :: rest ∨ args = "--song" :: name :: rest ∨
              args = ("-song=" ++ name) :: rest ∨ args = ("--song=" ++ name) :: rest)) ∨
         (∃ cmd rest, cmd ≠ "" ∧ cmd ≠ "autoplay" ∧
            ((args = cmd :: rest ∧ cmd ≠ "--") ∨ args = "--" :: cmd :: rest))) :
    ∃ err, run env args = (Outcome.returned (some err), []) ∧
      Event.openDefaultStream ∉ (run env args).2 ∧
      main env args = (some 1, [Event.portaudioInit, Event.stderr err]) := by
  have key : ∃ err, run env args = (Outcome.returned (some err), []) := by
    rcases h with ⟨name, rest, _, rfl | rfl | rfl | rfl⟩ | ⟨cmd, rest, h1, h2, ⟨rfl, h3⟩ | rfl⟩
    · exact run_rejects_first env _ _ (by decide) (by decide) (by decide)
    · exact run_rejects_first env _ _ (by decide) (by decide) (by decide)
    · rcases song_flag_eq_ne "-song=" name '-' 's' _ rfl (by decide) with ⟨a, b, c⟩ | hc
      · exact run_rejects_first env _ _ a b c
      · exact absurd rfl hc
    · have hp : ∃ err, FlagSet.parseOne (("--song=" ++ name) :: rest) = Except.error err := by
        have hd : ("--song=" ++ name).data
            = '-' :: '-' :: 's' :: 'o' :: 'n' :: 'g' :: '=' :: name.data := by
          simp [String.data_append]
        simp only [FlagSet.parseOne, hd]
        simp [flagName]
      obtain ⟨err, he⟩ := hp
      exact ⟨err, by simp [run, FlagSet.Parse, he]⟩
    · exact run_rejects_first env _ _ h1 h2 h3
    · exact run_rejects_after_terminator env _ _ h1 h2
  obtain ⟨err, he⟩ := key
  exact ⟨err, he, by simp [he], main_of_run_error env args err he⟩

/-- C7, at concrete inputs: the unknown song `xyz` and the unknown sub-action
`stop`. -/
theorem run_rejects_bad_arguments_witness :
    songs.lookup "xyz" = none ∧
    (∃ err, run ⟨none, none, none, none, 0⟩ ["-song", "xyz"]
        = (Outcome.returned (some err), []) ∧
      Event.openDefaultStream ∉ (run ⟨none, none, none, none, 0⟩ ["-song", "xyz"]).2 ∧
      main ⟨none, none, none, none, 0⟩ ["-song", "xyz"]
        = (some 1, [Event.portaudioInit, Event.stderr err])) ∧
    (∃ err, run ⟨none, none, none, none, 0⟩ ["stop"]
        = (Outcome.returned (some err), []) ∧
      Event.openDefaultStream ∉ (run ⟨none, none, none, none, 0⟩ ["stop"]).2 ∧
      main ⟨none, none, none, none, 0⟩ ["stop"]
        = (some 1, [Event.portaudioInit, Event.stderr err])) :=
  ⟨rfl,
   run_rejects_bad_arguments ⟨none, none, none, none, 0⟩ ["-song", "xyz"]
     (Or.inl ⟨"xyz", [], rfl, Or.inl rfl⟩),
   run_rejects_bad_arguments ⟨none, none, none, none, 0⟩ ["stop"]
     (Or.inr ⟨"stop", [], by decide, by decide, Or.inl ⟨rfl, by decide⟩⟩)⟩

/-! ## Releasing the stream and reporting errors -/

/-- C8, evaluated at the failing input: when the stream opens and `Start`
fails, `StartDefaultStream` returns the error without closing the stream it
opened, so `autoplay` and `playWithKeyboard` return with the stream still
open: their traces hold the open and no close. -/
theorem start_failure_leaks_stream (notes : List Note) (e : Error)
    (close : Option Error) (keys : Nat) :
    autoplay ⟨none, none, some e, close, keys⟩ notes
      = (Outcome.returned (some e), [Event.openDefaultStream, Event.start]) ∧
    playWithKeyboard ⟨none, none, some e, close, keys⟩ notes
      = (Outcome.returned (some e), [Event.stty, Event.openDefaultStream, Event.start]) ∧
    Event.close ∉ (autoplay ⟨none, none, some e, close, keys⟩ notes).2 ∧
    Event.close ∉ (playWithKeyboard ⟨none, none, some e, close, keys⟩ notes).2 := by
  refine ⟨rfl, rfl, ?_, ?_⟩
  · simp [autoplay, StartDefaultStream]
  · simp [playWithKeyboard, StartDefaultStream]

/-- C9 fails as stated: `Close` fails at the end of a successful autoplay of
the song, and `run` (and `autoplay`) return nil; the failing `Close` is the
last call made. -/
theorem close_error_is_dropped :
    (⟨none, none, none, some "close failed", 0⟩ : Env).close = some "close failed" ∧
    (autoplay ⟨none, none, none, some "close failed", 0⟩ bumblebees).1
      = Outcome.returned none ∧
    (autoplay ⟨none, none, none, some "close failed", 0⟩ bumblebees).2.getLast?
      = some Event.close ∧
    (run ⟨none, none, none, some "close failed", 0⟩ ["autoplay"]).1
      = Outcome.returned none :=
  ⟨rfl, rfl, rfl, rfl⟩

/-- C9 as amended: `run` returns the error of the first setup step that
fails (the terminal setup in interactive mode, opening the stream, starting
the stream); the result of `Close` is dropped, so once the stream has started
`autoplay` returns nil whatever `Close` returns. -/
theorem run_returns_setup_errors (env : Env) :
    (∀ e, env.openDefaultStream = some e →
      (run env ["autoplay"]).1 = Outcome.returned (some e)) ∧
    (∀ e, env.openDefaultStream = none → env.start = some e →
      (run env ["autoplay"]).1 = Outcome.returned (some e)) ∧
    (env.openDefaultStream = none → env.start = none →
      (run env ["autoplay"]).1 = Outcome.returned none) ∧
    (∀ e, env.stty = some e → (run env []).1 = Outcome.returned (some e)) ∧
    (∀ e, env.stty = none → env.openDefaultStream = some e →
      (run env []).1 = Outcome.returned (some e)) ∧
    (∀ e, env.stty = none → env.openDefaultStream = none → env.start = some e →
      (run env []).1 = Outcome.returned (some e)) := by
  have ha : run env ["autoplay"] = autoplay env bumblebees := rfl
  have hk : run env [] = playWithKeyboard env bumblebees := rfl
  rw [ha, hk]
  refine ⟨?_, ?_, ?_, ?_, ?_, ?_⟩
  · intro e h1
    simp [autoplay, StartDefaultStream, h1]
  · intro e h1 h2
    simp [autoplay, StartDefaultStream, h1, h2]
  · intro h1 h2
    simp [autoplay, StartDefaultStream, h1, h2]
  · intro e h1
    simp [playWithKeyboard, h1]
  · intro e h1 h2
    simp [playWithKeyboard, StartDefaultStream, h1, h2]
  · intro e h1 h2 h3
    simp [playWithKeyboard, StartDefaultStream, h1, h2, h3]

/-- C9 as amended, at a concrete input: a stream that opens and fails to
start. -/
theorem run_returns_setup_errors_witness :
    (run ⟨none, none, some "start failed", none, 0⟩ ["autoplay"]).1
      = Outcome.returned (some "start failed") :=
  (run_returns_setup_errors ⟨none, none, some "start failed", none, 0⟩).2.1
    "start failed" rfl rfl

end Hackerbeeper
